import Mathlib

/-!
# Valhalla faucet: formal model of the claim engine and client behavior

This file embeds, in Lean 4, the token-faucet claim logic of the Valhalla
repository.  The repository ships only the client page
(`client/src/pages/faucet.tsx`) and the web3 provider; the backend components
(Identity Store, Verification Gate, Cooldown Policy, Claim Engine, Stats
Aggregator) are specified but their code is not in the repository, so they are
modelled from the specification text.  Definitions taken from the client source
are marked with the file and lines they embed; definitions of the missing
backend start with `Modelled from the spec:`.

Timestamps and durations are integers counted in seconds.  Token amounts are
decimals with two fractional digits in the observed behavior (0.05 MON per
claim), embedded as fixed-point integers counted in hundredths of a MON:
the amount 5 below denotes 0.05 MON and 10 denotes 0.10 MON.
-/

/-- Modelled from the spec: a per-wallet identity record of the Identity Store
(§3 IdentityRecord): verification status, optional last-claim timestamp
(absent = never claimed), cumulative disbursed balance. -/
structure IdentityRecord where
  verified : Bool
  lastClaimAt : Option Int
  balanceDisbursed : Int
deriving DecidableEq

/-- Modelled from the spec: the record lazily created on first sight of an
address (`verified=false`, no claim history). -/
def defaultRecord : IdentityRecord :=
  { verified := false, lastClaimAt := none, balanceDisbursed := 0 }

/-- Modelled from the spec: running totals of the Stats Aggregator
(§3 FaucetStats). -/
structure FaucetStats where
  totalClaimed : Int
  totalClaimers : Nat
deriving DecidableEq

/-- Modelled from the spec: the whole engine state — the Identity Store as an
association list keyed by address, plus the Stats Aggregator cache. -/
structure EngineState where
  store : List (String × IdentityRecord)
  stats : FaucetStats
deriving DecidableEq

/-- Modelled from the spec: Identity Store `get(address)` — returns the stored
record, or a fresh unverified record if absent; never fails (§4.1). -/
def getRec : List (String × IdentityRecord) → String → IdentityRecord
  | [], _ => defaultRecord
  | (b, r) :: t, a => if b = a then r else getRec t a

/-- Modelled from the spec: writing an address's record back to the Identity
Store (replaces the existing entry, or appends a new one). -/
def setRec : List (String × IdentityRecord) → String → IdentityRecord → List (String × IdentityRecord)
  | [], a, r => [(a, r)]
  | (b, q) :: t, a, r => if b = a then (a, r) :: t else (b, q) :: setRec t a r

/-- Modelled from the spec: the fixed cooldown window, "a fixed configuration
value (24 hours in the observed behavior)" (§4.3); the client copy confirms a
"24-hour cooldown between claims" (faucet.tsx line 315).  In seconds. -/
def windowDuration : Int := 24 * 3600

/-- Modelled from the spec: the fixed disbursement amount, "a fixed constant
per claim (0.05 units in the observed behavior)" (§4.4); the client copy says
"Claim 0.05 MON Tokens" (faucet.tsx line 301).  In hundredths of a MON:
5 denotes 0.05 MON. -/
def claimAmount : Int := 5

/-- Modelled from the spec: result of the Cooldown Policy `evaluate` (§4.3). -/
structure CooldownEval where
  eligible : Bool
  remaining : Int
deriving DecidableEq

/-- Modelled from the spec: the pure Cooldown Policy
`evaluate(lastClaimAt, now, windowDuration)` (§4.3):
`eligible = (lastClaimAt is absent) OR (now - lastClaimAt >= windowDuration)`,
`remaining = max(0, windowDuration - (now - lastClaimAt))`. -/
def evaluate (lastClaimAt : Option Int) (now : Int) (window : Int) : CooldownEval :=
  match lastClaimAt with
  | none => { eligible := true, remaining := 0 }
  | some t => { eligible := decide (window ≤ now - t), remaining := max 0 (window - (now - t)) }

/-- Embeds the character class of the client-side wallet-address pattern
`/^0x[a-fA-F0-9]{40}$/` (faucet.tsx lines 16-20): a hex digit in either
case. -/
def isHexDigit (c : Char) : Bool :=
  (decide ('0' ≤ c) && decide (c ≤ '9')) ||
  (decide ('a' ≤ c) && decide (c ≤ 'f')) ||
  (decide ('A' ≤ c) && decide (c ≤ 'F'))

/-- Embeds the client-side address validation `faucetSchema`
(faucet.tsx lines 16-20): the string matches `/^0x[a-fA-F0-9]{40}$/` — the
anchored literal `0x` followed by exactly forty characters of the class
`[a-fA-F0-9]`. -/
def isValidAddress (s : String) : Bool :=
  match s.data with
  | c1 :: c2 :: rest => c1 == '0' && c2 == 'x' && rest.length == 40 && rest.all isHexDigit
  | _ => false

/-- Modelled from the spec: reason codes of the error taxonomy (§7). -/
inductive Reason where
  | invalid_address
  | verification_required
  | cooldown_active (remaining : Int)
  | disbursement_failed
  | conflict
deriving DecidableEq

/-- Modelled from the spec: ClaimResult (§3) — `claimed` with the amount
disbursed and the new `lastClaimAt`, or `rejected` with a reason code. -/
inductive ClaimResult where
  | claimed (amount : Int) (newLastClaimAt : Int)
  | rejected (reason : Reason)
deriving DecidableEq

/-- Modelled from the spec: the atomic success update of a claim (§4.4 step 5):
set `lastClaimAt = now`, increment `balanceDisbursed`, and update the Stats
Aggregator (`recordClaim`: `totalClaimed` grows by the amount, `totalClaimers`
by 1 iff this is the address's first-ever successful claim, i.e. its
`lastClaimAt` was absent). -/
def claimSuccessState (st : EngineState) (addr : String) (now : Int) : EngineState :=
  { store := setRec st.store addr
      { getRec st.store addr with
          lastClaimAt := some now
          balanceDisbursed := (getRec st.store addr).balanceDisbursed + claimAmount },
    stats :=
      { totalClaimed := st.stats.totalClaimed + claimAmount,
        totalClaimers := st.stats.totalClaimers
          + (if (getRec st.store addr).lastClaimAt = none then 1 else 0) } }

/-- Modelled from the spec: the Claim Engine `claim(address, now)` (§4.4).
Validation short-circuits in the fixed order: (1) address well-formed, else
`invalid_address`; (2) record verified, else `verification_required`;
(3) cooldown eligible, else `cooldown_active` with `remaining` attached;
(4) external disbursement (abstracted by the boolean `disburseOk`), on failure
`disbursement_failed` with no state mutation; (5) on success the atomic update
`claimSuccessState`.  Rejected paths return the state unchanged. -/
def claim (st : EngineState) (addr : String) (now : Int) (disburseOk : Bool) :
    ClaimResult × EngineState :=
  if isValidAddress addr then
    let r := getRec st.store addr
    if r.verified then
      let ev := evaluate r.lastClaimAt now windowDuration
      if ev.eligible then
        if disburseOk then
          (.claimed claimAmount now, claimSuccessState st addr now)
        else
          (.rejected .disbursement_failed, st)
      else
        (.rejected (.cooldown_active ev.remaining), st)
    else
      (.rejected .verification_required, st)
  else
    (.rejected .invalid_address, st)

/-- Modelled from the spec: result of the Verification Gate (§4.2). -/
inductive VerifyResult where
  | ok
  | invalid
deriving DecidableEq

/-- Modelled from the spec: Verification Gate `markVerified(address, proof)`
(§4.2); external-proof validation is abstracted by the boolean `proofValid`.
Idempotent; flips `verified` to true and never back. -/
def markVerified (st : EngineState) (addr : String) (proofValid : Bool) :
    VerifyResult × EngineState :=
  if proofValid then
    (.ok, { st with
      store := setRec st.store addr { getRec st.store addr with verified := true } })
  else
    (.invalid, st)

/-- Modelled from the spec: one engine operation — a claim attempt or a
verification callback (§2 data flow). -/
inductive Op where
  | claimOp (addr : String) (now : Int) (disburseOk : Bool)
  | verifyOp (addr : String) (proofValid : Bool)

/-- Applies one operation to the engine state. -/
def applyOp (st : EngineState) : Op → EngineState
  | .claimOp a n d => (claim st a n d).2
  | .verifyOp a p => (markVerified st a p).2

/-- Runs a sequence of operations from a state. -/
def runOpsFrom (st : EngineState) : List Op → EngineState
  | [] => st
  | op :: ops => runOpsFrom (applyOp st op) ops

/-- Modelled from the spec: the initial engine state — empty store, zero
stats. -/
def initState : EngineState :=
  { store := [], stats := { totalClaimed := 0, totalClaimers := 0 } }

/-- Modelled from the spec (§5): per-address mutual exclusion serializes
concurrent claim attempts for one address; this runs the attempts in their
serialization order, each at its server-observed time, with the external
disbursement succeeding. -/
def runClaims (addr : String) : EngineState → List Int → List ClaimResult × EngineState
  | st, [] => ([], st)
  | st, t :: ts =>
    let p := claim st addr t true
    let q := runClaims addr p.2 ts
    (p.1 :: q.1, q.2)

/-- Number of `claimed` outcomes in a result list. -/
def countClaimed : List ClaimResult → Nat
  | [] => 0
  | .claimed _ _ :: rs => countClaimed rs + 1
  | .rejected _ :: rs => countClaimed rs

/-- Checks that a list of timestamps is non-decreasing (server-observed times
in serialization order). -/
def sortedB : List Int → Bool
  | [] => true
  | [_] => true
  | a :: b :: t => decide (a ≤ b) && sortedB (b :: t)

/-- Sum of disbursed balances over the Identity Store: the replay derivation
of `totalClaimed` (§3 FaucetStats invariant). -/
def sumBal : List (String × IdentityRecord) → Int
  | [] => 0
  | (_, r) :: t => r.balanceDisbursed + sumBal t

/-- Number of store records with at least one successful claim (a present
`lastClaimAt`): the replay derivation of `totalClaimers` (§3). -/
def countClaimers : List (String × IdentityRecord) → Nat
  | [] => 0
  | (_, r) :: t => (if r.lastClaimAt.isSome then 1 else 0) + countClaimers t

/-- A lowercase hex digit, following the spec's words "canonical lowercase hex
string" (§3). -/
def isLowerHexDigit (c : Char) : Bool :=
  (decide ('0' ≤ c) && decide (c ≤ '9')) ||
  (decide ('a' ≤ c) && decide (c ≤ 'f'))

/-- Spec-words address predicate: `0x` followed by exactly 40 lowercase hex
digits (the claim's reading of "canonical lowercase hex string, 20 bytes"). -/
def specLowercaseAddress (s : String) : Bool :=
  match s.data with
  | '0' :: 'x' :: rest => rest.length == 40 && rest.all isLowerHexDigit
  | _ => false

/-- Spec-words address predicate, case-insensitive variant: length 42, first
two characters `0x`, remaining 40 characters hex digits of either case. -/
def specHex40Address (s : String) : Bool :=
  s.data.length == 42 && s.data.take 2 == ['0', 'x'] && (s.data.drop 2).all isHexDigit

/-- A 42-character address whose 40 hex digits are all uppercase. -/
def addrUpper : String := String.mk ('0' :: 'x' :: List.replicate 40 'A')

/-- The scenario address of §8: `0x` plus 40 lowercase hex characters. -/
def addr8 : String := "0xabcabcabcabcabcabcabcabcabcabcabcabcabcd"

/-- The scenario start state of §8: `addr8` is verified and has never
claimed. -/
def st8 : EngineState :=
  { store := [(addr8, { verified := true, lastClaimAt := none, balanceDisbursed := 0 })],
    stats := { totalClaimed := 0, totalClaimers := 0 } }

/-- §8 scenario, first step: claim at `t0 = 0`. -/
def c8a : ClaimResult × EngineState := claim st8 addr8 0 true

/-- §8 scenario, second step: claim again one hour after `t0`. -/
def c8b : ClaimResult × EngineState := claim c8a.2 addr8 3600 true

/-- §8 scenario, third step: claim 25 hours after `t0`. -/
def c8c : ClaimResult × EngineState := claim c8b.2 addr8 (25 * 3600) true

/-- Embeds the form data of `faucetSchema` (faucet.tsx lines 16-22): the only
field is the wallet address. -/
structure FaucetForm where
  walletAddress : String
deriving DecidableEq

/-- Embeds the request body sent by `faucetMutation` to
`POST /api/faucet/claim` (faucet.tsx lines 99-102). -/
structure ClaimRequestBody where
  userId : String
  walletAddress : String
deriving DecidableEq

/-- Embeds the body construction of `faucetMutation.mutationFn`
(faucet.tsx lines 99-102): `userId` is the hard-coded string `"demo-user"`,
`walletAddress` comes from the form. -/
def mkClaimRequest (data : FaucetForm) : ClaimRequestBody :=
  { userId := "demo-user", walletAddress := data.walletAddress }

/-- Embeds the `claimStatus` React state of the faucet page
(faucet.tsx lines 28-32). -/
structure ClaimStatus where
  canClaim : Bool
  timeLeft : Option String
  message : String
deriving DecidableEq

/-- Embeds the JSON body of a claim response as the client consumes it
(`data.amount` on success; an error message otherwise). -/
structure ClaimResponse where
  amount : Option String
  nextAvailableAt : Option Int
  reason : Option String
deriving DecidableEq

/-- Does the first list occur verbatim at the head of the second? (helper for
the substring test that embeds JavaScript `String.prototype.includes`). -/
def matchesAt : List Char → List Char → Bool
  | [], _ => true
  | _ :: _, [] => false
  | a :: as, b :: bs => a == b && matchesAt as bs

/-- Does the second list occur verbatim anywhere in the first? -/
def containsSub : List Char → List Char → Bool
  | [], needle => needle.isEmpty
  | c :: t, needle => matchesAt needle (c :: t) || containsSub t needle

/-- Embeds `errorMessage.includes(pat)` as used by the client error handler
(faucet.tsx lines 120 and 126). -/
def strContains (s pat : String) : Bool := containsSub s.data pat.data

/-- Embeds the `onSuccess` handler of `faucetMutation`
(faucet.tsx lines 105-117): the claim status is set to a fixed record with the
literal time-left `"23h 59m"`, ignoring the response body entirely. -/
def onSuccessStatus (_data : ClaimResponse) : ClaimStatus :=
  { canClaim := false,
    timeLeft := some "23h 59m",
    message := "Claimed successfully! Next claim available in 24 hours." }

/-- Embeds the `onError` handler of `faucetMutation`
(faucet.tsx lines 118-138): a message mentioning Discord verification clears
the status without a time-left; otherwise a message mentioning cooldown sets
the literal time-left `"23h 45m"`; any other error leaves the status as it
was. -/
def onErrorStatus (prev : ClaimStatus) (errorMessage : String) : ClaimStatus :=
  if strContains errorMessage "Discord verification" then
    { canClaim := false, timeLeft := none, message := "Discord verification required" }
  else if strContains errorMessage "cooldown" then
    { canClaim := false, timeLeft := some "23h 45m", message := "Faucet claim on cooldown" }
  else
    prev

/-! ## Helper lemmas about the store and the engine -/

lemma getRec_setRec_same (s : List (String × IdentityRecord)) (a : String) (r : IdentityRecord) :
    getRec (setRec s a r) a = r := by
  induction s with
  | nil => simp [setRec, getRec]
  | cons p t ih =>
    obtain ⟨b, q⟩ := p
    by_cases h : b = a
    · simp [setRec, getRec, h]
    · simp [setRec, getRec, h, ih]

lemma getRec_setRec_other (s : List (String × IdentityRecord)) (a b : String)
    (r : IdentityRecord) (h : a ≠ b) : getRec (setRec s a r) b = getRec s b := by
  induction s with
  | nil => simp [setRec, getRec, h]
  | cons p t ih =>
    obtain ⟨c, q⟩ := p
    by_cases hc : c = a
    · subst hc
      simp [setRec, getRec, h]
    · simp [setRec, getRec, hc, ih]

lemma sumBal_setRec (s : List (String × IdentityRecord)) (a : String) (r : IdentityRecord) :
    sumBal (setRec s a r) + (getRec s a).balanceDisbursed
      = sumBal s + r.balanceDisbursed := by
  induction s with
  | nil => simp [setRec, getRec, sumBal, defaultRecord]
  | cons p t ih =>
    obtain ⟨b, q⟩ := p
    by_cases h : b = a
    · simp [setRec, getRec, h, sumBal]
      ring
    · simp [setRec, getRec, h, sumBal]
      omega

lemma countClaimers_setRec (s : List (String × IdentityRecord)) (a : String)
    (r : IdentityRecord) :
    countClaimers (setRec s a r) + (if (getRec s a).lastClaimAt.isSome then 1 else 0)
      = countClaimers s + (if r.lastClaimAt.isSome then 1 else 0) := by
  induction s with
  | nil => simp [setRec, getRec, countClaimers, defaultRecord]
  | cons p t ih =>
    obtain ⟨b, q⟩ := p
    by_cases h : b = a
    · simp [setRec, getRec, h, countClaimers]
      omega
    · simp [setRec, getRec, h, countClaimers]
      omega

lemma windowDuration_pos : 0 < windowDuration := by decide

lemma claimAmount_pos : 0 < claimAmount := by decide

/-- The exhaustive case analysis of one `claim` invocation: exactly one of the
five outcomes of §4.4 happens, and each rejected outcome leaves the state
untouched. -/
lemma claim_spec (st : EngineState) (a : String) (n : Int) (d : Bool) :
    (claim st a n d = (.rejected .invalid_address, st) ∧ isValidAddress a = false)
    ∨ (claim st a n d = (.rejected .verification_required, st)
        ∧ isValidAddress a = true ∧ (getRec st.store a).verified = false)
    ∨ (claim st a n d
          = (.rejected (.cooldown_active
              (evaluate (getRec st.store a).lastClaimAt n windowDuration).remaining), st)
        ∧ isValidAddress a = true ∧ (getRec st.store a).verified = true
        ∧ (evaluate (getRec st.store a).lastClaimAt n windowDuration).eligible = false)
    ∨ (claim st a n d = (.rejected .disbursement_failed, st)
        ∧ isValidAddress a = true ∧ (getRec st.store a).verified = true
        ∧ (evaluate (getRec st.store a).lastClaimAt n windowDuration).eligible = true
        ∧ d = false)
    ∨ (claim st a n d = (.claimed claimAmount n, claimSuccessState st a n)
        ∧ isValidAddress a = true ∧ (getRec st.store a).verified = true
        ∧ (evaluate (getRec st.store a).lastClaimAt n windowDuration).eligible = true
        ∧ d = true) := by
  cases hv : isValidAddress a with
  | false =>
    exact Or.inl ⟨by simp [claim, hv], rfl⟩
  | true =>
    cases hb : (getRec st.store a).verified with
    | false =>
      exact Or.inr (Or.inl ⟨by simp [claim, hv, hb], rfl, rfl⟩)
    | true =>
      cases he : (evaluate (getRec st.store a).lastClaimAt n windowDuration).eligible with
      | false =>
        exact Or.inr (Or.inr (Or.inl ⟨by simp [claim, hv, hb, he], rfl, rfl, rfl⟩))
      | true =>
        cases d with
        | false =>
          exact Or.inr (Or.inr (Or.inr (Or.inl
            ⟨by simp [claim, hv, hb, he], rfl, rfl, rfl, rfl⟩)))
        | true =>
          exact Or.inr (Or.inr (Or.inr (Or.inr
            ⟨by simp [claim, hv, hb, he], rfl, rfl, rfl, rfl⟩)))

/-- A rejected claim leaves the engine state unchanged. -/
lemma claim_rejected_state (st : EngineState) (a : String) (n : Int) (d : Bool)
    (r : Reason) (h : (claim st a n d).1 = .rejected r) : (claim st a n d).2 = st := by
  rcases claim_spec st a n d with ⟨hc, _⟩ | ⟨hc, _⟩ | ⟨hc, _⟩ | ⟨hc, _⟩ | ⟨hc, _⟩ <;>
    simp_all

lemma eligible_some_iff (t n w : Int) :
    (evaluate (some t) n w).eligible = true ↔ w ≤ n - t := by
  simp [evaluate]

lemma remaining_some (t n w : Int) :
    (evaluate (some t) n w).remaining = max 0 (w - (n - t)) := rfl

lemma countClaimed_map_rejected (f : Int → Reason) (l : List Int) :
    countClaimed (l.map fun t => ClaimResult.rejected (f t)) = 0 := by
  induction l with
  | nil => rfl
  | cons t l ih => simp [countClaimed, ih]

lemma sortedB_cons_le (a b : Int) (l : List Int) (h : sortedB (a :: b :: l) = true) :
    a ≤ b ∧ sortedB (b :: l) = true := by
  simp [sortedB] at h
  exact ⟨h.1, h.2⟩

/-- While the record of a valid, verified address shows a last claim at `s`,
every serialized attempt strictly inside the window after `s` is rejected with
`cooldown_active` carrying the exact remaining wait, and the state never
changes. -/
lemma runClaims_cooldown (addr : String) (s : Int) (st : EngineState) (ts : List Int)
    (hv : isValidAddress addr = true)
    (hb : (getRec st.store addr).verified = true)
    (hl : (getRec st.store addr).lastClaimAt = some s)
    (hw : ∀ t ∈ ts, t - s < windowDuration) :
    runClaims addr st ts =
      (ts.map fun t => .rejected (.cooldown_active (windowDuration - (t - s))), st) := by
  induction ts with
  | nil => rfl
  | cons t ts ih =>
    have hts : t - s < windowDuration := hw t (by simp)
    have hne : (evaluate (getRec st.store addr).lastClaimAt t windowDuration).eligible = false := by
      rw [hl]
      simp [evaluate]
      omega
    have hrem : (evaluate (getRec st.store addr).lastClaimAt t windowDuration).remaining
        = windowDuration - (t - s) := by
      rw [hl, remaining_some]
      omega
    have hc : claim st addr t true
        = (.rejected (.cooldown_active (windowDuration - (t - s))), st) := by
      rcases claim_spec st addr t true with
        ⟨hc, hv2⟩ | ⟨hc, _, hb2⟩ | ⟨hc, _, _, _⟩ | ⟨hc, _, _, he, _⟩ | ⟨hc, _, _, he, _⟩
      · rw [hv] at hv2
        cases hv2
      · rw [hb] at hb2
        cases hb2
      · rw [hrem] at hc
        exact hc
      · rw [hne] at he
        cases he
      · rw [hne] at he
        cases he
    simp only [runClaims, hc, ih (fun u hu => hw u (by simp [hu])), List.map]

/-- While the record of an address is ineligible for the whole run (its last
claim is within the window of every attempt time), no serialized attempt
succeeds and the state never changes, whatever the address's validity or
verification status. -/
lemma runClaims_zero (addr : String) (s : Int) (st : EngineState) (ts : List Int)
    (hl : (getRec st.store addr).lastClaimAt = some s)
    (hw : ∀ t ∈ ts, t - s < windowDuration) :
    countClaimed (runClaims addr st ts).1 = 0 ∧ (runClaims addr st ts).2 = st := by
  induction ts with
  | nil => exact ⟨rfl, rfl⟩
  | cons t ts ih =>
    have hts : t - s < windowDuration := hw t (by simp)
    have hne : (evaluate (getRec st.store addr).lastClaimAt t windowDuration).eligible = false := by
      rw [hl]
      simp [evaluate]
      omega
    have hc : ∃ r, claim st addr t true = (.rejected r, st) := by
      rcases claim_spec st addr t true with
        ⟨hc, _⟩ | ⟨hc, _, _⟩ | ⟨hc, _, _, _⟩ | ⟨hc, _, _, he, _⟩ | ⟨hc, _, _, he, _⟩
      · exact ⟨_, hc⟩
      · exact ⟨_, hc⟩
      · exact ⟨_, hc⟩
      · rw [hne] at he
        cases he
      · rw [hne] at he
        cases he
    obtain ⟨r, hc⟩ := hc
    have htail := ih (fun u hu => hw u (by simp [hu]))
    simp only [runClaims, hc, countClaimed]
    exact htail

/-- Serialized within-window claim attempts succeed at most once, from any
starting state. -/
lemma runClaims_le_one (addr : String) :
    ∀ (rest : List Int) (st : EngineState) (t0 : Int),
      sortedB (t0 :: rest) = true →
      (∀ t ∈ rest, t - t0 < windowDuration) →
      countClaimed (runClaims addr st (t0 :: rest)).1 ≤ 1 := by
  intro rest
  induction rest with
  | nil =>
    intro st t0 _ _
    rcases claim_spec st addr t0 true with
      ⟨hc, _⟩ | ⟨hc, _⟩ | ⟨hc, _⟩ | ⟨hc, _⟩ | ⟨hc, _⟩ <;>
      simp [runClaims, hc, countClaimed]
  | cons t1 ts ih =>
    intro st t0 hsort hw
    obtain ⟨h01, hsort'⟩ := sortedB_cons_le t0 t1 ts hsort
    rcases claim_spec st addr t0 true with
      ⟨hc, _⟩ | ⟨hc, _, _⟩ | ⟨hc, _, _, _⟩ | ⟨hc, _, _, _, hd⟩ | ⟨hc, hv, hb, he, _⟩
    · have := ih st t1 hsort' (fun u hu => by
        have h1 := hw u (by simp [hu])
        have h2 : t0 ≤ t1 := h01
        omega)
      simp only [runClaims, hc, countClaimed]
      exact this
    · have := ih st t1 hsort' (fun u hu => by
        have h1 := hw u (by simp [hu])
        omega)
      simp only [runClaims, hc, countClaimed]
      exact this
    · have := ih st t1 hsort' (fun u hu => by
        have h1 := hw u (by simp [hu])
        omega)
      simp only [runClaims, hc, countClaimed]
      exact this
    · cases hd
    · have hlast : (getRec (claimSuccessState st addr t0).store addr).lastClaimAt = some t0 := by
        simp [claimSuccessState, getRec_setRec_same]
      have hzero := runClaims_zero addr t0 (claimSuccessState st addr t0) (t1 :: ts) hlast
        (fun u hu => hw u hu)
      have h1 := hzero.1
      simp only [runClaims] at h1
      simp only [runClaims, hc, countClaimed]
      omega

/-- From a state where the address is valid, verified and has never claimed,
the first serialized attempt succeeds and every further within-window attempt
is rejected with `cooldown_active`. -/
lemma runClaims_first_success (addr : String) (st : EngineState) (t0 : Int) (rest : List Int)
    (hv : isValidAddress addr = true)
    (hb : (getRec st.store addr).verified = true)
    (hl : (getRec st.store addr).lastClaimAt = none)
    (hw : ∀ t ∈ rest, t - t0 < windowDuration) :
    runClaims addr st (t0 :: rest)
      = (.claimed claimAmount t0
          :: (rest.map fun t => .rejected (.cooldown_active (windowDuration - (t - t0)))),
         claimSuccessState st addr t0) := by
  have he : (evaluate (getRec st.store addr).lastClaimAt t0 windowDuration).eligible = true := by
    rw [hl]
    rfl
  have hc : claim st addr t0 true = (.claimed claimAmount t0, claimSuccessState st addr t0) := by
    rcases claim_spec st addr t0 true with
      ⟨hc, hv2⟩ | ⟨hc, _, hb2⟩ | ⟨hc, _, _, he2⟩ | ⟨hc, _, _, _, hd⟩ | ⟨hc, _, _, _, _⟩
    · rw [hv] at hv2
      cases hv2
    · rw [hb] at hb2
      cases hb2
    · rw [he] at he2
      cases he2
    · cases hd
    · exact hc
  have hb' : (getRec (claimSuccessState st addr t0).store addr).verified = true := by
    simp [claimSuccessState, getRec_setRec_same, hb]
  have hl' : (getRec (claimSuccessState st addr t0).store addr).lastClaimAt = some t0 := by
    simp [claimSuccessState, getRec_setRec_same]
  have htail := runClaims_cooldown addr t0 (claimSuccessState st addr t0) rest hv hb' hl' hw
  simp only [runClaims, hc, htail]

/-- `countClaimed` of a cons whose head is a success. -/
lemma countClaimed_claimed_cons (a n : Int) (l : List ClaimResult) :
    countClaimed (.claimed a n :: l) = countClaimed l + 1 := rfl

/-! ## Claim theorems -/

/-- Claim C1: under per-address serialization of N ≥ 1 concurrent claim
attempts for one address, all placed within one cooldown window (server times
non-decreasing in serialization order, with every later attempt strictly less
than `windowDuration` after the first), at most one attempt returns `claimed`;
and for a well-formed, verified, never-claimed address, exactly one attempt
succeeds while every other attempt is rejected with `cooldown_active`. -/
theorem claim_engine_at_most_one_success (st : EngineState) (addr : String)
    (t0 : Int) (rest : List Int)
    (hsort : sortedB (t0 :: rest) = true)
    (hwin : ∀ t ∈ rest, t - t0 < windowDuration) :
    countClaimed (runClaims addr st (t0 :: rest)).1 ≤ 1
    ∧ (isValidAddress addr = true →
       (getRec st.store addr).verified = true →
       (getRec st.store addr).lastClaimAt = none →
         countClaimed (runClaims addr st (t0 :: rest)).1 = 1
         ∧ ∀ r ∈ (runClaims addr st (t0 :: rest)).1.tail,
             ∃ rem, r = ClaimResult.rejected (.cooldown_active rem)) := by
  refine ⟨runClaims_le_one addr rest st t0 hsort hwin, fun hv hb hl => ?_⟩
  have h := runClaims_first_success addr st t0 rest hv hb hl hwin
  rw [h]
  constructor
  · simp [countClaimed_claimed_cons, countClaimed_map_rejected]
  · intro r hr
    simp only [List.tail_cons] at hr
    obtain ⟨t, _, rfl⟩ := List.mem_map.mp hr
    exact ⟨_, rfl⟩

/-- Witness for C1 at a concrete run: three serialized attempts at 0 s,
1800 s and 3599 s for the verified never-claimed scenario address succeed
exactly once. -/
theorem claim_engine_at_most_one_success_witness :
    sortedB [0, 1800, 3599] = true
    ∧ countClaimed (runClaims addr8 st8 [0, 1800, 3599]).1 = 1 :=
  ⟨by decide,
   ((claim_engine_at_most_one_success st8 addr8 0 [1800, 3599] (by decide)
      (by decide)).2 (by decide) (by decide) (by decide)).1⟩

/-- Claim C2: the Cooldown Policy `evaluate` is the pure function with
`eligible` true exactly when the last claim is absent or at least
`windowDuration` old, `remaining = max(0, windowDuration - (now - lastClaimAt))`
whenever a last claim exists, and the configured window is the fixed 24 hours
(86400 s). -/
theorem cooldown_policy_evaluate_spec (last : Option Int) (now window : Int) :
    ((evaluate last now window).eligible = true ↔
      last = none ∨ ∃ t, last = some t ∧ window ≤ now - t)
    ∧ (∀ t, last = some t →
        (evaluate last now window).remaining = max 0 (window - (now - t)))
    ∧ windowDuration = 24 * 3600 := by
  refine ⟨?_, ?_, rfl⟩
  · cases last with
    | none => simp [evaluate]
    | some t => simp [evaluate]
  · intro t h
    rw [h]
    rfl

/-- Witness for C2 one hour after a claim: not eligible, 23 hours remain. -/
theorem cooldown_policy_evaluate_spec_witness :
    ((evaluate (some 0) 3600 windowDuration).eligible = true ↔
      (some 0 : Option Int) = none ∨ ∃ t, (some 0 : Option Int) = some t ∧ windowDuration ≤ 3600 - t)
    ∧ (evaluate (some 0) 3600 windowDuration).remaining = max 0 (windowDuration - (3600 - 0)) :=
  ⟨(cooldown_policy_evaluate_spec (some 0) 3600 windowDuration).1,
   (cooldown_policy_evaluate_spec (some 0) 3600 windowDuration).2.1 0 rfl⟩

/-- Claim C3: every rejected claim — including a disbursement failure — leaves
the whole engine state (Identity Store and Stats Aggregator) unchanged, and
after a disbursement failure an immediate retry at the same instant still
succeeds. -/
theorem rejected_claim_mutates_nothing :
    (∀ (st : EngineState) (a : String) (n : Int) (d : Bool) (r : Reason),
        (claim st a n d).1 = ClaimResult.rejected r → (claim st a n d).2 = st)
    ∧ (∀ (st : EngineState) (a : String) (n : Int),
        isValidAddress a = true →
        (getRec st.store a).verified = true →
        (evaluate (getRec st.store a).lastClaimAt n windowDuration).eligible = true →
          claim st a n false = (.rejected .disbursement_failed, st)
          ∧ (claim st a n true).1 = .claimed claimAmount n) := by
  constructor
  · exact claim_rejected_state
  · intro st a n hv hb he
    constructor
    · rcases claim_spec st a n false with
        ⟨hc, hv2⟩ | ⟨hc, _, hb2⟩ | ⟨hc, _, _, he2⟩ | ⟨hc, _, _, _, _⟩ | ⟨hc, _, _, _, hd⟩
      · rw [hv] at hv2
        cases hv2
      · rw [hb] at hb2
        cases hb2
      · rw [he] at he2
        cases he2
      · exact hc
      · cases hd
    · rcases claim_spec st a n true with
        ⟨hc, hv2⟩ | ⟨hc, _, hb2⟩ | ⟨hc, _, _, he2⟩ | ⟨hc, _, _, _, hd⟩ | ⟨hc, _, _, _, _⟩
      · rw [hv] at hv2
        cases hv2
      · rw [hb] at hb2
        cases hb2
      · rw [he] at he2
        cases he2
      · cases hd
      · rw [hc]

/-- Witness for C3: a malformed-address rejection changes nothing, and for the
scenario address a failed disbursement changes nothing while the immediate
retry succeeds. -/
theorem rejected_claim_mutates_nothing_witness :
    (claim st8 "oops" 0 true).2 = st8
    ∧ claim st8 addr8 0 false = (.rejected .disbursement_failed, st8)
    ∧ (claim st8 addr8 0 true).1 = .claimed claimAmount 0 :=
  ⟨rejected_claim_mutates_nothing.1 st8 "oops" 0 true .invalid_address (by decide),
   (rejected_claim_mutates_nothing.2 st8 addr8 0 (by decide) (by decide) (by decide)).1,
   (rejected_claim_mutates_nothing.2 st8 addr8 0 (by decide) (by decide) (by decide)).2⟩

/-- Claim C4: a claim runs its checks in the fixed order — address format,
verification, cooldown, disbursement — short-circuiting on the first failure,
each failure with its own distinct reason (`invalid_address`,
`verification_required`, `cooldown_active` with `remaining` attached,
`disbursement_failed`), and succeeds when all pass. -/
theorem claim_validation_order (st : EngineState) (a : String) (n : Int) (d : Bool) :
    (isValidAddress a = false → claim st a n d = (.rejected .invalid_address, st))
    ∧ (isValidAddress a = true → (getRec st.store a).verified = false →
        claim st a n d = (.rejected .verification_required, st))
    ∧ (isValidAddress a = true → (getRec st.store a).verified = true →
        (evaluate (getRec st.store a).lastClaimAt n windowDuration).eligible = false →
        claim st a n d = (.rejected (.cooldown_active
          (evaluate (getRec st.store a).lastClaimAt n windowDuration).remaining), st))
    ∧ (isValidAddress a = true → (getRec st.store a).verified = true →
        (evaluate (getRec st.store a).lastClaimAt n windowDuration).eligible = true →
        claim st a n false = (.rejected .disbursement_failed, st))
    ∧ (isValidAddress a = true → (getRec st.store a).verified = true →
        (evaluate (getRec st.store a).lastClaimAt n windowDuration).eligible = true →
        claim st a n true = (.claimed claimAmount n, claimSuccessState st a n))
    ∧ (Reason.invalid_address ≠ Reason.verification_required
        ∧ Reason.invalid_address ≠ Reason.disbursement_failed
        ∧ Reason.verification_required ≠ Reason.disbursement_failed
        ∧ ∀ rem : Int, Reason.cooldown_active rem ≠ Reason.invalid_address
            ∧ Reason.cooldown_active rem ≠ Reason.verification_required
            ∧ Reason.cooldown_active rem ≠ Reason.disbursement_failed) := by
  refine ⟨?_, ?_, ?_, ?_, ?_, by decide, by decide, by decide, fun rem => ⟨by simp, by simp, by simp⟩⟩
  · intro hv
    simp [claim, hv]
  · intro hv hb
    simp [claim, hv, hb]
  · intro hv hb he
    simp [claim, hv, hb, he]
  · intro hv hb he
    simp [claim, hv, hb, he]
  · intro hv hb he
    simp [claim, hv, hb, he]

/-- Witness for C4: each branch of the validation order observed at a concrete
input — a malformed address, an unverified record, a cooling-down record, a
failed disbursement, and a full success. -/
theorem claim_validation_order_witness :
    claim st8 "oops" 0 true = (.rejected .invalid_address, st8)
    ∧ claim initState addr8 0 true = (.rejected .verification_required, initState)
    ∧ claim c8a.2 addr8 3600 true = (.rejected (.cooldown_active
        (evaluate (getRec c8a.2.store addr8).lastClaimAt 3600 windowDuration).remaining), c8a.2)
    ∧ claim st8 addr8 0 false = (.rejected .disbursement_failed, st8)
    ∧ claim st8 addr8 0 true = (.claimed claimAmount 0, claimSuccessState st8 addr8 0) :=
  ⟨(claim_validation_order st8 "oops" 0 true).1 (by decide),
   (claim_validation_order initState addr8 0 true).2.1 (by decide) (by decide),
   (claim_validation_order c8a.2 addr8 3600 true).2.2.1 (by decide) (by decide) (by decide),
   (claim_validation_order st8 addr8 0 false).2.2.2.1 (by decide) (by decide) (by decide),
   (claim_validation_order st8 addr8 0 true).2.2.2.2.1 (by decide) (by decide) (by decide)⟩

/-- Counterexample to claim C5 as stated: the address made of `0x` and forty
uppercase `A` characters is accepted by the source pattern
`/^0x[a-fA-F0-9]{40}$/` although it is not a lowercase hex string, so
acceptance is not equivalent to being canonical lowercase hex. -/
theorem address_validation_accepts_uppercase :
    isValidAddress addrUpper = true ∧ specLowercaseAddress addrUpper = false :=
  ⟨by decide, by decide⟩

/-- Claim C5 (amended): the claim flow accepts a string exactly when it is
`0x` followed by exactly forty hex digits of either case (20 bytes), and every
other string is rejected with reason `invalid_address`. -/
theorem address_validation_hex40 (s : String) (st : EngineState) (n : Int) (d : Bool) :
    (isValidAddress s = true ↔ specHex40Address s = true)
    ∧ (isValidAddress s = false → claim st s n d = (.rejected .invalid_address, st)) := by
  constructor
  · have h1 : isValidAddress s =
        match s.data with
        | c1 :: c2 :: rest => c1 == '0' && c2 == 'x' && rest.length == 40 && rest.all isHexDigit
        | _ => false := rfl
    rcases hs : s.data with _ | ⟨c, _ | ⟨e, rest⟩⟩
    · rw [h1, hs]
      simp [specHex40Address, hs]
    · rw [h1, hs]
      simp [specHex40Address, hs]
    · rw [h1, hs]
      simp only [specHex40Address, hs, List.length_cons, List.take_succ_cons, List.take_zero,
        List.drop_succ_cons, List.drop_zero, Bool.and_eq_true, beq_iff_eq, List.cons.injEq,
        and_true]
      constructor
      · rintro ⟨⟨⟨hc, he⟩, hlen⟩, hall⟩
        exact ⟨⟨by omega, hc, he⟩, hall⟩
      · rintro ⟨⟨hlen, hc, he⟩, hall⟩
        exact ⟨⟨⟨hc, he⟩, by omega⟩, hall⟩
  · intro hv
    simp [claim, hv]

/-- Witness for C5 (amended) at a concrete rejected input. -/
theorem address_validation_hex40_witness :
    isValidAddress "oops" = false
    ∧ claim st8 "oops" 0 true = (.rejected .invalid_address, st8) :=
  ⟨by decide, (address_validation_hex40 "oops" st8 0 true).2 (by decide)⟩

/-- Ordering on optional last-claim timestamps: monotone non-decreasing means
an absent value may become anything, and a present value may only grow and
never disappear. -/
def lastLe : Option Int → Option Int → Prop
  | none, _ => True
  | some _, none => False
  | some a, some b => a ≤ b

lemma lastLe_refl (o : Option Int) : lastLe o o := by
  cases o with
  | none => trivial
  | some a => exact le_refl a

lemma lastLe_trans {o1 o2 o3 : Option Int} (h12 : lastLe o1 o2) (h23 : lastLe o2 o3) :
    lastLe o1 o3 := by
  cases o1 with
  | none => trivial
  | some a =>
    cases o2 with
    | none => cases h12
    | some b =>
      cases o3 with
      | none => cases h23
      | some c => exact le_trans h12 h23

/-- One engine operation never rewinds an address's last-claim timestamp and
never lowers its disbursed balance. -/
lemma applyOp_record_evolution (st : EngineState) (op : Op) (a : String) :
    lastLe (getRec st.store a).lastClaimAt (getRec (applyOp st op).store a).lastClaimAt
    ∧ (getRec st.store a).balanceDisbursed ≤ (getRec (applyOp st op).store a).balanceDisbursed := by
  cases op with
  | verifyOp b p =>
    cases p with
    | false =>
      simp only [applyOp, markVerified, Bool.false_eq_true, if_false]
      exact ⟨lastLe_refl _, le_refl _⟩
    | true =>
      by_cases hab : b = a
      · subst hab
        simp only [applyOp, markVerified, if_true, getRec_setRec_same]
        exact ⟨lastLe_refl _, le_refl _⟩
      · simp only [applyOp, markVerified, if_true, getRec_setRec_other _ _ _ _ hab]
        exact ⟨lastLe_refl _, le_refl _⟩
  | claimOp b n d =>
    rcases claim_spec st b n d with
      ⟨hc, _⟩ | ⟨hc, _⟩ | ⟨hc, _⟩ | ⟨hc, _⟩ | ⟨hc, _, _, he, _⟩
    · simp only [applyOp, hc]
      exact ⟨lastLe_refl _, le_refl _⟩
    · simp only [applyOp, hc]
      exact ⟨lastLe_refl _, le_refl _⟩
    · simp only [applyOp, hc]
      exact ⟨lastLe_refl _, le_refl _⟩
    · simp only [applyOp, hc]
      exact ⟨lastLe_refl _, le_refl _⟩
    · by_cases hab : b = a
      · subst hab
        simp only [applyOp, hc, claimSuccessState, getRec_setRec_same]
        constructor
        · cases hll : (getRec st.store b).lastClaimAt with
          | none => trivial
          | some s =>
            rw [hll] at he
            rw [eligible_some_iff] at he
            have hw := windowDuration_pos
            show s ≤ n
            omega
        · have := claimAmount_pos
          omega
      · simp only [applyOp, hc, claimSuccessState, getRec_setRec_other _ _ _ _ hab]
        exact ⟨lastLe_refl _, le_refl _⟩

/-- Over any operation sequence, last-claim timestamps are non-decreasing and
balances never shrink. -/
lemma runOpsFrom_record_evolution (ops : List Op) (st : EngineState) (a : String) :
    lastLe (getRec st.store a).lastClaimAt (getRec (runOpsFrom st ops).store a).lastClaimAt
    ∧ (getRec st.store a).balanceDisbursed
        ≤ (getRec (runOpsFrom st ops).store a).balanceDisbursed := by
  induction ops generalizing st with
  | nil => exact ⟨lastLe_refl _, le_refl _⟩
  | cons op ops ih =>
    have h1 := applyOp_record_evolution st op a
    have h2 := ih (applyOp st op)
    exact ⟨lastLe_trans h1.1 h2.1, le_trans h1.2 h2.2⟩

/-- If an operation changes an address's balance, it was a claim for that very
address that returned `claimed`. -/
lemma applyOp_balance_change (st : EngineState) (op : Op) (a : String)
    (h : (getRec (applyOp st op).store a).balanceDisbursed
          ≠ (getRec st.store a).balanceDisbursed) :
    ∃ n d, op = Op.claimOp a n d ∧ (claim st a n d).1 = .claimed claimAmount n := by
  cases op with
  | verifyOp b p =>
    exfalso
    apply h
    cases p with
    | false => simp only [applyOp, markVerified, Bool.false_eq_true, if_false]
    | true =>
      by_cases hab : b = a
      · subst hab
        simp only [applyOp, markVerified, if_true, getRec_setRec_same]
      · simp only [applyOp, markVerified, if_true, getRec_setRec_other _ _ _ _ hab]
  | claimOp b n d =>
    rcases claim_spec st b n d with
      ⟨hc, _⟩ | ⟨hc, _⟩ | ⟨hc, _⟩ | ⟨hc, _⟩ | ⟨hc, _, _, _, _⟩
    · exact absurd (by simp only [applyOp, hc]) h
    · exact absurd (by simp only [applyOp, hc]) h
    · exact absurd (by simp only [applyOp, hc]) h
    · exact absurd (by simp only [applyOp, hc]) h
    · by_cases hab : b = a
      · subst hab
        exact ⟨n, d, rfl, by rw [hc]⟩
      · exfalso
        apply h
        simp only [applyOp, hc, claimSuccessState, getRec_setRec_other _ _ _ _ hab]

/-- Claim C6: per address, `lastClaimAt` is monotonically non-decreasing and
`balanceDisbursed` never decreases over any sequence of engine operations, and
a balance only ever changes through a Claim Engine invocation for that address
that returns `claimed`. -/
theorem identity_record_monotonic :
    (∀ (st : EngineState) (ops : List Op) (a : String),
        lastLe (getRec st.store a).lastClaimAt
          (getRec (runOpsFrom st ops).store a).lastClaimAt)
    ∧ (∀ (st : EngineState) (ops : List Op) (a : String),
        (getRec st.store a).balanceDisbursed
          ≤ (getRec (runOpsFrom st ops).store a).balanceDisbursed)
    ∧ (∀ (st : EngineState) (op : Op) (a : String),
        (getRec (applyOp st op).store a).balanceDisbursed
            ≠ (getRec st.store a).balanceDisbursed →
        ∃ n d, op = Op.claimOp a n d ∧ (claim st a n d).1 = .claimed claimAmount n) :=
  ⟨fun st ops a => (runOpsFrom_record_evolution ops st a).1,
   fun st ops a => (runOpsFrom_record_evolution ops st a).2,
   applyOp_balance_change⟩

/-- Witness for C6: the scenario's first successful claim changes the balance,
and the change is indeed attributed to a `claimed` invocation for that
address. -/
theorem identity_record_monotonic_witness :
    (getRec (applyOp st8 (Op.claimOp addr8 0 true)).store addr8).balanceDisbursed
        ≠ (getRec st8.store addr8).balanceDisbursed
    ∧ ∃ n d, Op.claimOp addr8 0 true = Op.claimOp addr8 n d
        ∧ (claim st8 addr8 n d).1 = .claimed claimAmount n :=
  ⟨by decide, identity_record_monotonic.2.2 st8 (Op.claimOp addr8 0 true) addr8 (by decide)⟩

/-- The Stats Aggregator cache agrees with the replay derivation from the
Identity Store (§3 FaucetStats invariant). -/
def statsOk (st : EngineState) : Prop :=
  st.stats.totalClaimed = sumBal st.store
  ∧ st.stats.totalClaimers = countClaimers st.store

/-- One engine operation preserves the aggregator-derivation agreement. -/
lemma statsOk_applyOp (st : EngineState) (op : Op) (h : statsOk st) :
    statsOk (applyOp st op) := by
  obtain ⟨h1, h2⟩ := h
  cases op with
  | verifyOp b p =>
    cases p with
    | false =>
      simp only [applyOp, markVerified, Bool.false_eq_true, if_false]
      exact ⟨h1, h2⟩
    | true =>
      have hs := sumBal_setRec st.store b
        { getRec st.store b with verified := true }
      have hcc := countClaimers_setRec st.store b
        { getRec st.store b with verified := true }
      constructor
      · simp only [applyOp, markVerified, if_true]
        simp only at hs
        omega
      · simp only [applyOp, markVerified, if_true]
        simp only at hcc
        omega
  | claimOp b n d =>
    rcases claim_spec st b n d with
      ⟨hc, _⟩ | ⟨hc, _⟩ | ⟨hc, _⟩ | ⟨hc, _⟩ | ⟨hc, _, _, _, _⟩
    · simp only [applyOp, hc]
      exact ⟨h1, h2⟩
    · simp only [applyOp, hc]
      exact ⟨h1, h2⟩
    · simp only [applyOp, hc]
      exact ⟨h1, h2⟩
    · simp only [applyOp, hc]
      exact ⟨h1, h2⟩
    · have hs := sumBal_setRec st.store b
        ⟨(getRec st.store b).verified, some n,
         (getRec st.store b).balanceDisbursed + claimAmount⟩
      have hcc := countClaimers_setRec st.store b
        ⟨(getRec st.store b).verified, some n,
         (getRec st.store b).balanceDisbursed + claimAmount⟩
      constructor
      · simp only [applyOp, hc, claimSuccessState]
        simp only at hs
        omega
      · simp only [applyOp, hc, claimSuccessState]
        cases hll : (getRec st.store b).lastClaimAt with
        | none =>
          simp [hll] at hcc
          simp [hll]
          omega
        | some s =>
          simp [hll] at hcc
          simp [hll]
          omega

/-- The agreement is preserved over any operation sequence. -/
lemma statsOk_runOpsFrom (ops : List Op) (st : EngineState) (h : statsOk st) :
    statsOk (runOpsFrom st ops) := by
  induction ops generalizing st with
  | nil => exact h
  | cons op ops ih => exact ih (applyOp st op) (statsOk_applyOp st op h)

/-- Claim C7: after every completed operation sequence the Stats Aggregator
equals the derivation from the Identity Store (`totalClaimed` is the sum of
all disbursed balances, `totalClaimers` counts the addresses with at least one
successful claim), and each successful claim adds the claim amount to
`totalClaimed` and increments `totalClaimers` exactly when it is the address's
first-ever successful claim. -/
theorem stats_cache_consistent :
    (∀ ops : List Op,
        (runOpsFrom initState ops).stats.totalClaimed
            = sumBal (runOpsFrom initState ops).store
        ∧ (runOpsFrom initState ops).stats.totalClaimers
            = countClaimers (runOpsFrom initState ops).store)
    ∧ (∀ (st : EngineState) (a : String) (n : Int) (d : Bool),
        (claim st a n d).1 = ClaimResult.claimed claimAmount n →
          (claim st a n d).2.stats.totalClaimed = st.stats.totalClaimed + claimAmount
          ∧ (claim st a n d).2.stats.totalClaimers
              = st.stats.totalClaimers
                + (if (getRec st.store a).lastClaimAt = none then 1 else 0)) := by
  constructor
  · intro ops
    exact statsOk_runOpsFrom ops initState ⟨rfl, rfl⟩
  · intro st a n d h
    rcases claim_spec st a n d with
      ⟨hc, _⟩ | ⟨hc, _⟩ | ⟨hc, _⟩ | ⟨hc, _⟩ | ⟨hc, _, _, _, _⟩
    · rw [hc] at h
      cases h
    · rw [hc] at h
      cases h
    · rw [hc] at h
      cases h
    · rw [hc] at h
      cases h
    · rw [hc]
      exact ⟨rfl, rfl⟩

/-- Witness for C7: the scenario's first claim returns `claimed` and bumps the
totals — `totalClaimed` by the fixed amount and `totalClaimers` by one, since
the address had never claimed. -/
theorem stats_cache_consistent_witness :
    (claim st8 addr8 0 true).1 = ClaimResult.claimed claimAmount 0
    ∧ (claim st8 addr8 0 true).2.stats.totalClaimed = st8.stats.totalClaimed + claimAmount
    ∧ (claim st8 addr8 0 true).2.stats.totalClaimers
        = st8.stats.totalClaimers
          + (if (getRec st8.store addr8).lastClaimAt = none then 1 else 0) :=
  ⟨by decide,
   (stats_cache_consistent.2 st8 addr8 0 true (by decide)).1,
   (stats_cache_consistent.2 st8 addr8 0 true (by decide)).2⟩

/-- Claim C8: for the verified, never-claimed 40-hex-digit scenario address
with the 24-hour window and fixed amount 0.05 MON (5 hundredths): the claim at
`t0 = 0` returns `claimed` with the fixed amount; the claim at `t0` + 1 h is
rejected with `cooldown_active` and 23 h remaining; the claim at `t0` + 25 h
returns `claimed` again, leaving a cumulative disbursed balance of 0.10 MON
(10 hundredths). -/
theorem scenario_claim_cooldown_reclaim :
    c8a.1 = ClaimResult.claimed claimAmount 0
    ∧ claimAmount = 5
    ∧ c8b.1 = ClaimResult.rejected (.cooldown_active (23 * 3600))
    ∧ c8c.1 = ClaimResult.claimed claimAmount (25 * 3600)
    ∧ (getRec c8c.2.store addr8).balanceDisbursed = 10 := by
  refine ⟨by decide, by decide, by decide, by decide, by decide⟩

/-- Claim C9: the claim request body posted by the client form has the
constant `userId` `"demo-user"`, carries the form's wallet address verbatim,
and is fully determined by the wallet address alone. -/
theorem claim_request_constant_user (d : FaucetForm) :
    (mkClaimRequest d).userId = "demo-user"
    ∧ (mkClaimRequest d).walletAddress = d.walletAddress
    ∧ ∀ d2 : FaucetForm, d2.walletAddress = d.walletAddress →
        mkClaimRequest d2 = mkClaimRequest d := by
  refine ⟨rfl, rfl, ?_⟩
  intro d2 h
  simp [mkClaimRequest, h]

/-- Witness for C9 at a concrete form value. -/
theorem claim_request_constant_user_witness :
    (mkClaimRequest ⟨addr8⟩).userId = "demo-user"
    ∧ mkClaimRequest ⟨addr8⟩ = mkClaimRequest ⟨addr8⟩ :=
  ⟨(claim_request_constant_user ⟨addr8⟩).1,
   (claim_request_constant_user ⟨addr8⟩).2.2 ⟨addr8⟩ rfl⟩

/-- Claim C10: the client's displayed time-left is a constant independent of
the server-reported remaining duration — every success handler sets the
literal `"23h 59m"` whatever the response body holds, and every error message
classified as a cooldown rejection (it mentions cooldown and not Discord
verification) sets the literal `"23h 45m"`. -/
theorem client_timeleft_constants :
    (∀ data : ClaimResponse, (onSuccessStatus data).timeLeft = some "23h 59m")
    ∧ (∀ (prev : ClaimStatus) (msg : String),
        strContains msg "Discord verification" = false →
        strContains msg "cooldown" = true →
        (onErrorStatus prev msg).timeLeft = some "23h 45m") := by
  refine ⟨fun _ => rfl, ?_⟩
  intro prev msg h1 h2
  simp [onErrorStatus, h1, h2]

/-- Witness for C10 on a concrete success response and a concrete cooldown
error message. -/
theorem client_timeleft_constants_witness :
    (onSuccessStatus ⟨some "0.05", some 86400, none⟩).timeLeft = some "23h 59m"
    ∧ (onErrorStatus ⟨true, none, "Ready to claim"⟩ "Faucet claim on cooldown").timeLeft
        = some "23h 45m" :=
  ⟨client_timeleft_constants.1 ⟨some "0.05", some 86400, none⟩,
   client_timeleft_constants.2 ⟨true, none, "Ready to claim"⟩ "Faucet claim on cooldown"
     (by decide) (by decide)⟩
